import Mathlib

/-!
Verification of the mcpo-bridge child-process orchestration subsystem.

This file gives a shallow embedding, in Lean 4, of the parts of the
`mcpo-bridge` Python source that the specification's claims talk about:

* `src/core/process_manager.py` — `_communicate` response parsing,
  `_add_usage_guide_tool`, the stateful pool (`_execute_stateful`,
  `_remove_stateful_process`), and the global admission semaphore;
* `src/core/garbage_collector.py` — `cleanup_old_jobs` and `_safe_delete`;
* `src/api/common.py` — `_extract_file_info` (file discovery and path
  rewriting) and the download-link append step of `process_mcp_request`.

JSON values are modelled by the inductive type `Json` below; Python dicts
become association lists that preserve insertion order (Python 3.7+ dict
semantics), and Python string operations are modelled by the corresponding
character-list implementations `pySplit`, `pyReplace`, `pyStartsWith`,
`pyTake` and `pyJoin` defined below.  Machine-level concerns (actual OS processes, pipes,
signals) are abstracted into explicit data: the theorems below are about
the decision logic the Python code runs on top of those effects.
-/

/-- JSON values, with objects as insertion-ordered association lists
(the semantics of Python `dict` used by the source). -/
inductive Json where
  | null
  | bool (b : Bool)
  | num (n : Int)
  | str (s : String)
  | arr (items : List Json)
  | obj (fields : List (String × Json))

namespace Json

/-- Python `d[k]` / `k in d` on an insertion-ordered dict: first binding wins
(association lists built by the embedding never contain duplicate keys). -/
def lookupJ : List (String × Json) → String → Option Json
  | [], _ => none
  | (k, v) :: rest, key => if k = key then some v else lookupJ rest key

/-- Python `d[k] = v`: overwrite in place if the key exists (keeping its
position, as Python dicts do), otherwise append at the end. -/
def setKey : List (String × Json) → String → Json → List (String × Json)
  | [], key, v => [(key, v)]
  | (k, w) :: rest, key, v =>
    if k = key then (k, v) :: rest else (k, w) :: setKey rest key v

theorem lookupJ_setKey_ne (l : List (String × Json)) (k k' : String) (v : Json)
    (h : k' ≠ k) : lookupJ (setKey l k v) k' = lookupJ l k' := by
  induction l with
  | nil => simp [setKey, lookupJ, Ne.symm h]
  | cons p rest ih =>
    obtain ⟨a, b⟩ := p
    by_cases hak : a = k
    · subst hak
      simp [setKey, lookupJ, Ne.symm h]
    · simp [setKey, hak, lookupJ, ih]

theorem lookupJ_setKey_self (l : List (String × Json)) (k : String) (v : Json) :
    lookupJ (setKey l k v) k = some v := by
  induction l with
  | nil => simp [setKey, lookupJ]
  | cons p rest ih =>
    obtain ⟨a, b⟩ := p
    by_cases hak : a = k
    · simp [setKey, hak, lookupJ]
    · simp [setKey, hak, lookupJ, ih]

theorem setKey_self (l : List (String × Json)) (k : String) (v : Json)
    (h : lookupJ l k = some v) : setKey l k v = l := by
  induction l with
  | nil => simp [lookupJ] at h
  | cons p rest ih =>
    obtain ⟨a, b⟩ := p
    by_cases hak : a = k
    · subst hak
      simp [lookupJ] at h
      simp [setKey, h]
    · simp [lookupJ, hak] at h
      simp [setKey, hak, ih h]

end Json

open Json

/-! ## Python string primitives

Lean's built-in `String` functions (`splitOn`, `replace`, `startsWith`,
`take`) are compiled primitives that the kernel cannot evaluate, so the
CPython string operations the source relies on are implemented here over
the underlying character lists.  Each is a direct transcription of the
CPython behaviour for a non-empty pattern: `split` cuts at every
non-overlapping left-to-right occurrence, `replace` substitutes every
such occurrence, `startswith` is a prefix test, and slicing `[:n]` keeps
the first `n` characters. -/

/-- Worker of `pySplit`: cut `cs` at every occurrence of `sep`
(non-empty), accumulating the current piece in reverse.  The `fuel`
argument, always at least `cs.length`, makes the recursion structural
(each step consumes at least one character). -/
def pySplitAux (sep : List Char) : Nat → List Char → List Char → List (List Char)
  | _, [], cur => [cur.reverse]
  | 0, cs, cur => [cur.reverse ++ cs]
  | fuel + 1, c :: rest, cur =>
    if sep.isPrefixOf (c :: rest) then
      cur.reverse :: pySplitAux sep fuel (rest.drop (sep.length - 1)) []
    else pySplitAux sep fuel rest (c :: cur)

/-- Python `s.split(sep)` for a non-empty separator. -/
def pySplit (s sep : String) : List String :=
  if sep.data.isEmpty then [s]
  else (pySplitAux sep.data s.data.length s.data []).map String.mk

/-- Worker of `pyReplace`; `fuel` as in `pySplitAux`. -/
def pyReplaceAux (pat rep : List Char) : Nat → List Char → List Char
  | _, [] => []
  | 0, cs => cs
  | fuel + 1, c :: rest =>
    if pat.isPrefixOf (c :: rest) then
      rep ++ pyReplaceAux pat rep fuel (rest.drop (pat.length - 1))
    else c :: pyReplaceAux pat rep fuel rest

/-- Python `s.replace(pat, rep)` for a non-empty pattern: substitute
every non-overlapping occurrence, left to right. -/
def pyReplace (s pat rep : String) : String :=
  if pat.data.isEmpty then s
  else String.mk (pyReplaceAux pat.data rep.data s.data.length s.data)

/-- Python `s.startswith(pre)`. -/
def pyStartsWith (s pre : String) : Bool :=
  pre.data.isPrefixOf s.data

/-- Python `s[:n]`. -/
def pyTake (s : String) (n : Nat) : String :=
  String.mk (s.data.take n)

/-- Python `sep.join(xs)`. -/
def pyJoin (sep : String) : List String → String
  | [] => ""
  | [x] => x
  | x :: rest => x ++ sep ++ pyJoin sep rest

/-! ## `ProcessManager._communicate` — response-line parsing

Embedding of the tail of `_communicate` (process_manager.py, lines 393-438):
after the single stdout line has been read, the line is decoded and parsed;
a decode of a non-JSON line is answered by a synthesized JSON-RPC `-32700`
envelope carrying the first 500 characters of the decoded text, an empty
line by a `-32603` envelope; the request's `id` (Python
`request_data.get("id")`, i.e. JSON `null` when absent) is preserved.  The
function returns normally in all three cases — exceptions are raised only
by the write/read/timeout machinery upstream of this point.

`parsed` stands for the result of `json.loads` on the decoded line:
`some j` when the line parses as the JSON value `j`, `none` when
`json.loads` raises `JSONDecodeError`. -/

/-- `request_data.get("id")`: the `id` member of the request envelope, or
Python `None` (JSON `null`) when absent. -/
def requestId (request : Json) : Json :=
  match request with
  | .obj fields => (lookupJ fields "id").getD .null
  | _ => .null

/-- The `-32700` "Parse error" envelope synthesized by `_communicate`
(process_manager.py lines 417-425). -/
def parseErrorEnvelope (line : String) (request : Json) : Json :=
  .obj [("jsonrpc", .str "2.0"),
        ("error", .obj [("code", .num (-32700)),
                        ("message", .str "Parse error"),
                        ("data", .str (pyTake line 500))]),
        ("id", requestId request)]

/-- The `-32603` "Internal error" envelope synthesized by `_communicate`
for an empty stdout line (process_manager.py lines 428-436). -/
def noResponseEnvelope (request : Json) : Json :=
  .obj [("jsonrpc", .str "2.0"),
        ("error", .obj [("code", .num (-32603)),
                        ("message", .str "Internal error"),
                        ("data", .str "No response from MCP server")]),
        ("id", requestId request)]

/-- The response value `_communicate` returns for a call exchange, as a
function of the stdout line and of the outcome of `json.loads` on it
(process_manager.py lines 410-438). -/
def communicateRespond (request : Json) (stdoutLine : String)
    (parsed : Option Json) : Json :=
  if stdoutLine ≠ "" then
    match parsed with
    | some j => j
    | none => parseErrorEnvelope stdoutLine request
  else
    noResponseEnvelope request

/-! ## `GarbageCollector` — `cleanup_old_jobs` and `_safe_delete`

The GC pass iterates over the immediate children of the jobs root.  The
model records, for each child, the data the pass inspects: the results of
`is_dir()` (which follows symlinks), `is_symlink()`, `str(path.resolve())`,
the `created_at` recovered from a readable `metadata.json` (if any), and
the directory's `st_mtime`.

Python `datetime` comparison is partial: comparing an offset-aware and an
offset-naive datetime raises `TypeError`.  `PyTime` keeps the aware/naive
distinction and `pyLtTime` returns `none` exactly where CPython raises.
`cleanup_old_jobs` computes its cutoff with `datetime.utcnow()`, which is
naive, while `metadata.created_at` parsed by pydantic from the ISO-8601
string written by `JobManager.save_metadata` (UTC with offset) is aware. -/

/-- A Python `datetime`, tagged offset-naive or offset-aware, with the
instant as seconds. -/
inductive PyTime where
  | naive (t : Int)
  | aware (t : Int)
deriving DecidableEq, Repr

/-- Python `<` on datetimes: defined on like-tagged values, `TypeError`
(modelled as `none`) across the naive/aware boundary. -/
def pyLtTime : PyTime → PyTime → Option Bool
  | .naive a, .naive b => some (decide (a < b))
  | .aware a, .aware b => some (decide (a < b))
  | _, _ => none

/-- One immediate child of the jobs root, as seen by a GC pass. -/
structure JobDirEntry where
  name : String
  /-- `path.is_dir()` — follows symlinks. -/
  isDir : Bool
  /-- `path.is_symlink()`. -/
  isSymlink : Bool
  /-- `str(path.resolve())` — for a symlink this is the resolved target. -/
  resolved : String
  /-- `created_at` recovered from a readable `metadata.json` through
  `job_manager.load_metadata`; `none` when the file is missing or
  unreadable. -/
  metaCreatedAt : Option PyTime
  /-- `datetime.fromtimestamp(path.stat().st_mtime)` — offset-naive. -/
  mtime : Int
deriving DecidableEq, Repr

/-- The inputs of one GC pass. -/
structure GCConfig where
  /-- `str(self.jobs_dir.resolve())`. -/
  jobsDirResolved : String
  /-- `datetime.utcnow()` at the start of the pass — offset-naive. -/
  now : Int
  /-- `settings.file_expiry`, seconds. -/
  fileExpiry : Int
deriving Repr

/-- `GarbageCollector._safe_delete` (garbage_collector.py lines 80-95):
would this call reach `shutil.rmtree`?  The containment check is a string
comparison `str(path.resolve()).startswith(str(jobs_dir.resolve()))`; the
symlink check follows it. -/
def safeDeleteWouldDelete (cfg : GCConfig) (e : JobDirEntry) : Bool :=
  if ¬ pyStartsWith e.resolved cfg.jobsDirResolved then false
  else if e.isSymlink then false
  else true

/-- The per-entry decision of `GarbageCollector.cleanup_old_jobs`
(garbage_collector.py lines 44-66): `true` iff this pass deletes the
entry.  `created_at` comes from a readable metadata (a pydantic
`datetime`, so the `isinstance(created_at, str)` branch of the source is
dead) or falls back to the naive mtime; a `TypeError` from the
naive/aware comparison is caught by the per-entry `except` and the entry
is skipped. -/
def gcCreatedAt (e : JobDirEntry) : PyTime :=
  match e.metaCreatedAt with
  | some t => t
  | none => PyTime.naive e.mtime

def gcDecision (cfg : GCConfig) (e : JobDirEntry) : Bool :=
  if ¬ e.isDir then false
  else
    match pyLtTime (gcCreatedAt e) (PyTime.naive (cfg.now - cfg.fileExpiry)) with
    | none => false
    | some false => false
    | some true => safeDeleteWouldDelete cfg e

/-- One full `cleanup_old_jobs` pass over the jobs root: the entries that
survive. -/
def cleanupOldJobs (cfg : GCConfig) (entries : List JobDirEntry) :
    List JobDirEntry :=
  entries.filter (fun e => ! gcDecision cfg e)

/-- Component-wise descendant test, following the specification's words
("the resolved path is a descendant of the resolved jobs root"): equal to
the root or extending it across a path separator.  Stated for comparison
with the string-prefix check actually run by `_safe_delete`. -/
def isPathDescendant (root p : String) : Bool :=
  p = root || pyStartsWith p (root ++ "/")

/-! ## `ProcessManager._add_usage_guide_tool` and the call-arity bug

`_add_usage_guide_tool(self, server_type, request_data, response_data)`
(process_manager.py lines 509-564) splices a synthetic first entry into a
`tools/list` result when a non-empty usage guide is configured.  The
ephemeral path calls it as
`self._add_usage_guide_tool(server_type, request_data, response_data)`
(line 159); the persistent path calls it as
`self._add_usage_guide_tool(request_data, response_data)` (line 207), two
positional arguments for a three-parameter method, which raises
`TypeError` at run time.  The positional-binding model `bindsPositional`
captures CPython's arity check for calls without keywords or defaults. -/

/-- The synthetic usage-guide tool entry built by `_add_usage_guide_tool`
(process_manager.py lines 544-557). -/
def usageGuideToolJson (guide : String) : Json :=
  .obj [("name", .str "📖_usage_instructions"),
        ("description", .str guide),
        ("inputSchema",
          .obj [("type", .str "object"),
                ("properties",
                  .obj [("_note",
                    .obj [("type", .str "string"),
                          ("description",
                            .str "This is a documentation tool and cannot be executed")])]),
                ("required", .arr [])])]

/-- `request_data.get("method")`. -/
def getMethod (requestData : Json) : Option Json :=
  match requestData with
  | .obj f => lookupJ f "method"
  | _ => none

/-- `request_data.get("method") == "tools/list"`: true only when the
`method` member is the string `"tools/list"`. -/
def isToolsListRequest (requestData : Json) : Bool :=
  match getMethod requestData with
  | some (.str m) => m = "tools/list"
  | _ => false

/-- `_add_usage_guide_tool`, called with its intended three arguments:
`usageGuide` is `mcp_config.get_usage_guide(server_type)` (`none` when the
key is absent from the server's config). -/
def addUsageGuideTool (usageGuide : Option String) (requestData responseData : Json) :
    Json :=
  if ¬ isToolsListRequest requestData then responseData
  else
    match responseData with
    | .obj rf =>
      match lookupJ rf "result" with
      | some (.obj resf) =>
        match lookupJ resf "tools" with
        | some (.arr tools) =>
          match usageGuide with
          | none => responseData
          | some guide =>
            if guide = "" then responseData
            else
              .obj (setKey rf "result"
                (.obj (setKey resf "tools"
                  (.arr (usageGuideToolJson guide :: tools)))))
        | _ => responseData
      | _ => responseData
    | _ => responseData

/-- The non-`self` parameter list of a Python method, for modelling
CPython's call binding. -/
structure PyCallSig where
  params : List String
deriving DecidableEq, Repr

/-- A call passing `argCount` positional arguments (no keywords) to a
method without defaults binds iff the count equals the parameter count;
otherwise CPython raises `TypeError`. -/
def bindsPositional (sig : PyCallSig) (argCount : Nat) : Bool :=
  argCount = sig.params.length

/-- A call passing only keyword arguments binds only if every keyword
names a parameter; an unknown keyword raises
`TypeError: unexpected keyword argument`. -/
def bindsKeywords (sig : PyCallSig) (kwargs : List String) : Bool :=
  kwargs.all (fun k => sig.params.contains k)

/-- Parameters of `ProcessManager.execute_request` (process_manager.py
lines 89-95), `self` omitted. -/
def executeRequestSig : PyCallSig :=
  ⟨["server_type", "request_data", "job_dir", "client_ip"]⟩

/-- Keywords with which `process_mcp_request` calls
`process_manager.execute_request` (common.py lines 193-198). -/
def processMcpRequestCallKeywords : List String :=
  ["server_type", "request_data", "job_dir", "session_key"]

/-- Number of components of the tuple `execute_request` returns
(`return response_data, exit_code` on both its paths; its annotation is
`Tuple[dict, int]`). -/
def executeRequestResultArity : Nat := 2

/-- Number of targets `process_mcp_request` unpacks the result into
(`response_data, exit_code, actual_job_dir = ...`, common.py line 193). -/
def processMcpRequestUnpackArity : Nat := 3

/-- Parameters of `ProcessManager._add_usage_guide_tool`
(process_manager.py line 509), `self` omitted. -/
def addUsageGuideToolSig : PyCallSig :=
  ⟨["server_type", "request_data", "response_data"]⟩

/-- Positional arguments passed at the ephemeral-path call site
(process_manager.py line 159). -/
def statelessUsageGuideCallArity : Nat := 3

/-- Positional arguments passed at the persistent-path call site
(process_manager.py line 207). -/
def statefulUsageGuideCallArity : Nat := 2

/-! ## The stateful pool — eviction on exchange failure

`_execute_stateful` (process_manager.py lines 199-221) runs the exchange
under the child's `request_lock`; on success it bumps `last_access` and
`request_count`; on any exception from the `try` body it calls
`_remove_stateful_process` (terminate + delete, lines 274-287) and
re-raises.  The model keeps the pool as an association list keyed by
`(server_type, client_ip)` and threads the exchange outcome in as data;
terminated OS processes are reported as a list of pids. -/

/-- The mutable per-child record `StatefulProcessInfo`
(process_manager.py lines 22-40), reduced to the fields the claims
mention; `pid` identifies the OS process handle. -/
structure PoolProcInfo where
  pid : Nat
  lastAccess : Int
  requestCount : Nat
deriving DecidableEq, Repr

/-- `self.stateful_processes`, flattened: `{server_type: {client_ip: info}}`
becomes an association list keyed by the pair. -/
abbrev StatefulPool := List ((String × String) × PoolProcInfo)

/-- Lookup of the pooled child for `(server_type, client_ip)`. -/
def poolLookup : StatefulPool → String → String → Option PoolProcInfo
  | [], _, _ => none
  | e :: rest, serverType, clientIp =>
    if e.1 = (serverType, clientIp) then some e.2
    else poolLookup rest serverType clientIp

/-- `_remove_stateful_process(server_type, client_ip)`: if an entry is
present, terminate its process and delete the entry; idempotent.  Returns
the new pool and the pids terminated. -/
def removeStatefulProcess (pool : StatefulPool) (serverType clientIp : String) :
    StatefulPool × List Nat :=
  match poolLookup pool serverType clientIp with
  | some info =>
    (pool.filter (fun e => ! decide (e.1 = (serverType, clientIp))), [info.pid])
  | none => (pool, [])

/-- Exceptions that can escape the `try` body of `_execute_stateful`:
`asyncio.TimeoutError` from `_communicate`, the `TypeError` raised by the
two-argument `_add_usage_guide_tool` call, or a pipe I/O error. -/
inductive ExchangeErr where
  | timeout
  | typeError
  | ioError
deriving DecidableEq, Repr

/-- The `try`/`except` tail of `_execute_stateful` (process_manager.py
lines 199-221): given the outcome of the exchange body, either update the
child's bookkeeping (success) or evict the child and re-raise (failure).
Returns the propagated outcome, the pool afterwards, and the pids
terminated. -/
def executeStatefulFinish (pool : StatefulPool) (serverType clientIp : String)
    (now : Int) (outcome : Except ExchangeErr (Json × Int)) :
    Except ExchangeErr (Json × Int) × StatefulPool × List Nat :=
  match outcome with
  | .ok r =>
    (.ok r,
     pool.map (fun e =>
       if decide (e.1 = (serverType, clientIp)) then
         (e.1, { e.2 with lastAccess := now, requestCount := e.2.requestCount + 1 })
       else e),
     [])
  | .error err =>
    let (pool', killed) := removeStatefulProcess pool serverType clientIp
    (.error err, pool', killed)

/-! ## Admission control — the global semaphore

`ProcessManager.__init__` creates `asyncio.Semaphore(settings.max_concurrent)`
(process_manager.py line 83).  `_execute_stateless` wraps its whole body in
`async with self.semaphore` (line 146), so an ephemeral execution holds one
permit from before the child is started until after it is terminated.
`_execute_stateful` never touches `self.semaphore`.  The transition system
below is the concurrency skeleton of those two paths: a state counts the
available permits and the in-flight executions of each kind, and the four
transitions are the entry and exit of the two paths. -/

/-- Concurrency state of the execution engine. -/
structure EngineState where
  availablePermits : Nat
  ephemeralInFlight : Nat
  statefulInFlight : Nat
deriving DecidableEq, Repr

/-- The transitions of the execution engine.  An ephemeral execution may
enter only by taking a permit (`async with self.semaphore`), and returns
it when it leaves; a persistent execution enters and leaves without
touching the permit count. -/
inductive EngineStep : EngineState → EngineState → Prop where
  | ephemeralStart (s : EngineState) (h : 0 < s.availablePermits) :
      EngineStep s ⟨s.availablePermits - 1, s.ephemeralInFlight + 1, s.statefulInFlight⟩
  | ephemeralFinish (s : EngineState) (h : 0 < s.ephemeralInFlight) :
      EngineStep s ⟨s.availablePermits + 1, s.ephemeralInFlight - 1, s.statefulInFlight⟩
  | statefulStart (s : EngineState) :
      EngineStep s ⟨s.availablePermits, s.ephemeralInFlight, s.statefulInFlight + 1⟩
  | statefulFinish (s : EngineState) (h : 0 < s.statefulInFlight) :
      EngineStep s ⟨s.availablePermits, s.ephemeralInFlight, s.statefulInFlight - 1⟩

/-- The state after `ProcessManager.__init__`: all `max_concurrent`
permits available, nothing in flight. -/
def engineInit (maxConcurrent : Nat) : EngineState :=
  ⟨maxConcurrent, 0, 0⟩

/-- States reachable from the initial state. -/
inductive EngineReachable (maxConcurrent : Nat) : EngineState → Prop where
  | init : EngineReachable maxConcurrent (engineInit maxConcurrent)
  | step {s t : EngineState} : EngineReachable maxConcurrent s →
      EngineStep s t → EngineReachable maxConcurrent t

/-! ## `_extract_file_info` — file discovery and path rewriting

Embedding of `_extract_file_info` (common.py lines 22-121) and of the
download-link append step of `process_mcp_request` (lines 231-257).

The Python function recurses over the JSON tree mutating dicts in place
and accumulating a `files` list in a closure; the embedding threads the
accumulated `List FileEntry` explicitly and rebuilds the tree.  The
recursion of `process_data` into the values of a dict happens after the
top-level mutations of that dict, so the Lean recursion is guarded by a
`fuel` parameter that counts nesting levels; any `fuel` larger than the
nesting depth of the input reproduces the Python behaviour, and fuel `0`
returns its input untouched.  The regex
`/tmp/mcpo-jobs/{job_id}/([^\s\)]+\.\w+)` used on embedded text is
modelled by an explicit left-to-right scan with CPython's
greedy-with-backtracking semantics; `\w` and `\s` are modelled by ASCII
alphanumeric-or-underscore and `Char.isWhitespace`, which agree with
CPython on the ASCII texts considered here. -/

/-- Python `pat in s` for a non-empty pattern `pat`. -/
def strContains (s pat : String) : Bool :=
  2 ≤ (pySplit s pat).length

/-- `pathlib.PurePath(p).name`: the final path component, with empty and
`.` components collapsed (empty for paths like `"."` or `"/"`). -/
def pathName (p : String) : String :=
  ((pySplit p "/").filter (fun c => c != "" && c != ".")).getLastD ""

/-- `extract_filename_from_path` (common.py lines 43-51): the text after
the last occurrence of `/mcpo-jobs/<job_id>/` when that marker occurs,
else the basename of a relative path, else `None` for other absolute
paths. -/
def extractFilenameFromPath (jobId filePath : String) : Option String :=
  let marker := "/mcpo-jobs/" ++ jobId ++ "/"
  if strContains filePath marker then
    some ((pySplit filePath marker).getLastD "")
  else if ¬ pyStartsWith filePath "/" then
    some (pathName filePath)
  else none

/-- One discovered file, as recorded in the `files` list
(`{"type": "file", "url": ..., "name": ...}`). -/
structure FileEntry where
  name : String
  url : String
deriving DecidableEq, Repr

/-- The non-`data` inputs of `_extract_file_info`. -/
structure RewriteConfig where
  jobId : String
  baseUrl : String
  filePathFields : List String

/-- `f"{base_url}/files/{job_id}/{filename}"`. -/
def downloadUrl (cfg : RewriteConfig) (filename : String) : String :=
  cfg.baseUrl ++ "/files/" ++ cfg.jobId ++ "/" ++ filename

/-- One iteration of the field loop (common.py lines 58-78) for a single
configured field name: when the field holds a non-empty string from which
a non-empty filename is extractable, record the file and set
`_download_url` on the object. -/
def fieldStep (cfg : RewriteConfig) (fieldName : String)
    (fields : List (String × Json)) (files : List FileEntry) :
    List (String × Json) × List FileEntry :=
  match lookupJ fields fieldName with
  | some (.str s) =>
    if s = "" then (fields, files)
    else
      match extractFilenameFromPath cfg.jobId s with
      | some f =>
        if f = "" then (fields, files)
        else
          let url := downloadUrl cfg f
          (setKey fields "_download_url" (.str url), files ++ [⟨f, url⟩])
      | none => (fields, files)
  | _ => (fields, files)

/-- The field loop `for field_name in file_path_fields` (common.py line
58), threading the mutated object through successive field names. -/
def fieldLoop (cfg : RewriteConfig) :
    List String → List (String × Json) → List FileEntry →
    List (String × Json) × List FileEntry
  | [], fields, files => (fields, files)
  | n :: rest, fields, files =>
    fieldLoop cfg rest (fieldStep cfg n fields files).1 (fieldStep cfg n fields files).2

/-- `\w` of the embedded regex (ASCII). -/
def isWordChar (c : Char) : Bool :=
  c.isAlphanum || c = '_'

/-- `[^\s\)]` of the embedded regex. -/
def isPathRunChar (c : Char) : Bool :=
  ¬ (c.isWhitespace || c = ')')

/-- Backtracking position of `[^\s\)]+\.\w+` inside the maximal
`[^\s\)]`-run `R`: the largest `k ≥ 1` such that `R[k] = '.'` and
`R[k+1]` is a word character (CPython's greedy `[^\s\)]+` backtracks from
the longest prefix). -/
def lastDotIdx (R : List Char) : Option Nat :=
  ((List.range R.length).filter (fun k =>
    decide (1 ≤ k) && (R.get? k == some '.') &&
      (match R.get? (k + 1) with
       | some c => isWordChar c
       | none => false))).getLast?

/-- The group matched by `([^\s\)]+\.\w+)` at the start of the run `R`,
with its length, or `none` when the group cannot match. -/
def matchGroup (R : List Char) : Option (List Char × Nat) :=
  match lastDotIdx R with
  | none => none
  | some k =>
    let run := ((R.drop (k + 1)).takeWhile isWordChar).length
    let len := k + 1 + run
    some (R.take len, len)

/-- `re.findall` of `pfx ++ ([^\s\)]+\.\w+)` over a character list:
left-to-right, non-overlapping; on a prefix occurrence where the group
cannot match, the scan resumes one character later. -/
def findallAux (pfx : List Char) : Nat → List Char → List String
  | _, [] => []
  | 0, _ => []
  | fuel + 1, c :: rest =>
    if pfx.isPrefixOf (c :: rest) then
      let afterRun := ((c :: rest).drop pfx.length).takeWhile isPathRunChar
      match matchGroup afterRun with
      | some (g, len) =>
        String.mk g :: findallAux pfx fuel (rest.drop (pfx.length + len - 1))
      | none => findallAux pfx fuel rest
    else findallAux pfx fuel rest

/-- `re.findall(rf"/tmp/mcpo-jobs/{job_id}/([^\s\)]+\.\w+)", text)`
(common.py lines 89-90). -/
def findallPaths (jobId text : String) : List String :=
  findallAux ("/tmp/mcpo-jobs/" ++ jobId ++ "/").data text.data.length text.data

/-- The `for filename in matches` loop (common.py lines 92-105): record
each match unless a file of the same name was already discovered, and
replace every occurrence of the absolute path with the bare filename. -/
def rewriteMatches (cfg : RewriteConfig) :
    List String → String → List FileEntry → String × List FileEntry
  | [], text, files => (text, files)
  | fn :: rest, text, files =>
    let url := downloadUrl cfg fn
    let files' :=
      if files.all (fun f => f.name != fn) then files ++ [⟨fn, url⟩] else files
    rewriteMatches cfg rest
      (pyReplace text ("/tmp/mcpo-jobs/" ++ cfg.jobId ++ "/" ++ fn) fn) files'

/-- Processing of one item of a `content` array (common.py lines 82-108):
only `{"type": "text"}` dict items with a string `text` containing the
`/mcpo-jobs/<job_id>/` marker are touched.  An item whose `type` is
`"text"` but whose `text` member is a non-string makes the CPython
containment test raise `TypeError`; the embedding returns such items
unchanged, and theorems that quantify over responses exclude them
through the `contentTextOk` predicate below. -/
def scanContentItem (cfg : RewriteConfig) (item : Json) (files : List FileEntry) :
    Json × List FileEntry :=
  match item with
  | .obj ifields =>
    match lookupJ ifields "type" with
    | some (.str t) =>
      if t = "text" then
        match lookupJ ifields "text" with
        | some (.str text) =>
          if strContains text ("/mcpo-jobs/" ++ cfg.jobId ++ "/") then
            (.obj (setKey ifields "text"
               (.str (rewriteMatches cfg (findallPaths cfg.jobId text) text files).1)),
             (rewriteMatches cfg (findallPaths cfg.jobId text) text files).2)
          else (item, files)
        | some _ => (item, files)
        | none => (item, files)
      else (item, files)
    | _ => (item, files)
  | _ => (item, files)

/-- `for item in data["content"]` (common.py line 82). -/
def scanContentList (cfg : RewriteConfig) :
    List Json → List FileEntry → List Json × List FileEntry
  | [], files => ([], files)
  | item :: rest, files =>
    ((scanContentItem cfg item files).1 ::
       (scanContentList cfg rest (scanContentItem cfg item files).2).1,
     (scanContentList cfg rest (scanContentItem cfg item files).2).2)

/-- The `content` scan of one object (common.py lines 81-108): applies
only when the object has a `content` member holding a list. -/
def contentScan (cfg : RewriteConfig) (fields : List (String × Json))
    (files : List FileEntry) : List (String × Json) × List FileEntry :=
  match lookupJ fields "content" with
  | some (.arr items) =>
    (setKey fields "content" (.arr (scanContentList cfg items files).1),
     (scanContentList cfg items files).2)
  | _ => (fields, files)

/-- Threading of a processing function through the values of an object's
field list, preserving keys: the shape of
`for key, value in data.items(): data[key] = process_data(value)`
(common.py lines 111-112). -/
def threadPairs (g : Json → List FileEntry → Json × List FileEntry) :
    List (String × Json) → List FileEntry → List (String × Json) × List FileEntry
  | [], files => ([], files)
  | (k, v) :: rest, files =>
    ((k, (g v files).1) :: (threadPairs g rest (g v files).2).1,
     (threadPairs g rest (g v files).2).2)

/-- Threading of a processing function through a list:
`data = [process_data(item) for item in data]` (common.py line 116). -/
def threadItems (g : Json → List FileEntry → Json × List FileEntry) :
    List Json → List FileEntry → List Json × List FileEntry
  | [], files => ([], files)
  | item :: rest, files =>
    ((g item files).1 :: (threadItems g rest (g item files).2).1,
     (threadItems g rest (g item files).2).2)

/-- `process_data` (common.py lines 53-118) with a fuel bound on the
nesting depth: on a dict, run the field loop, then the content scan, then
recurse into every value of the mutated dict; on a list, recurse into
every element; scalars are returned unchanged.  Any fuel larger than the
nesting depth of the input reproduces the Python recursion; fuel 0
returns the input untouched. -/
def processDataF (cfg : RewriteConfig) :
    Nat → Json → List FileEntry → Json × List FileEntry
  | 0, j, files => (j, files)
  | fuel + 1, j, files =>
    match j with
    | .obj fields =>
      let r1 := fieldLoop cfg cfg.filePathFields fields files
      let r2 := contentScan cfg r1.1 r1.2
      let r3 := threadPairs (processDataF cfg fuel) r2.1 r2.2
      (.obj r3.1, r3.2)
    | .arr items =>
      let r := threadItems (processDataF cfg fuel) items files
      (.arr r.1, r.2)
    | _ => (j, files)

/-- `_extract_file_info` (common.py lines 22-121): process the response
starting from an empty `files` list. -/
def extractFileInfoF (cfg : RewriteConfig) (fuel : Nat) (data : Json) :
    Json × List FileEntry :=
  processDataF cfg fuel data []

/-- One line `📎 ダウンロード: [<name>](<url>)` of the appended
download-link text (common.py lines 238-241). -/
def downloadLine (f : FileEntry) : String :=
  "📎 ダウンロード: [" ++ f.name ++ "](" ++ f.url ++ ")"

/-- The download-link append step of `process_mcp_request` (common.py
lines 231-257): when files were discovered and the response has a
`result` object, append a `{"type": "text"}` item listing them to
`result.content`, creating `content` when absent.  A non-dict `result`
together with a non-empty file list makes CPython raise `TypeError` on
the membership test or the item assignment; the embedding returns such
responses unchanged.  Theorems that quantify over responses reach this
function only with an empty file list, where it agrees with the program
(the `if files and ...` guard skips the whole block). -/
def appendDownloadLinks (responseData : Json) (files : List FileEntry) : Json :=
  if files.isEmpty then responseData
  else
    match responseData with
    | .obj rf =>
      match lookupJ rf "result" with
      | some (.obj resf) =>
        match lookupJ resf "content" with
        | some (.arr items) =>
          let txt := "\n\n" ++ pyJoin "\n" (files.map downloadLine)
          .obj (setKey rf "result" (.obj (setKey resf "content"
            (.arr (items ++ [.obj [("type", .str "text"), ("text", .str txt)]])))))
        | some _ => responseData
        | none =>
          let txt := pyJoin "\n" (files.map downloadLine)
          .obj (setKey rf "result" (.obj (setKey resf "content"
            (.arr [.obj [("type", .str "text"), ("text", .str txt)]]))))
      | some _ => responseData
      | none => responseData
    | _ => responseData

/-- The full response-rewrite step applied by `process_mcp_request`
(common.py lines 223-257): file discovery and path rewriting followed by
the download-link append. -/
def rewriteResponse (cfg : RewriteConfig) (fuel : Nat) (responseData : Json) : Json :=
  appendDownloadLinks (extractFileInfoF cfg fuel responseData).1
    (extractFileInfoF cfg fuel responseData).2

/-- The filename, if any, that one iteration of the field loop extracts
for the configured field name `n` of the object `fields`: the field must
be present, hold a non-empty string, and yield a non-empty extracted
filename.  This is the amended reading of the claim's "a filename was
extractable", for comparison with `fieldStep`. -/
def extractCandidate (cfg : RewriteConfig) (fields : List (String × Json))
    (n : String) : Option String :=
  match lookupJ fields n with
  | some (.str s) =>
    if s = "" then none
    else
      match extractFilenameFromPath cfg.jobId s with
      | some f => if f = "" then none else some f
      | none => none
  | _ => none

/-- Worker for `lastExtractedFilename`: fold the candidate extraction
over the configured field names, keeping the last hit. -/
def lastExtractedAux (cfg : RewriteConfig) :
    List String → List (String × Json) → Option String → Option String
  | [], _, acc => acc
  | n :: rest, fields, acc =>
    lastExtractedAux cfg rest fields
      (match extractCandidate cfg fields n with
       | some f => some f
       | none => acc)

/-- The filename extracted for the last configured field name of the
object that yields one — the field whose URL survives in
`_download_url` when several configured fields match. -/
def lastExtractedFilename (cfg : RewriteConfig) (names : List String)
    (fields : List (String × Json)) : Option String :=
  lastExtractedAux cfg names fields none

/-- Observer: the number of items of `result.content` of a response,
used to tell two response values apart. -/
def resultContentLength (j : Json) : Nat :=
  match j with
  | .obj rf =>
    match lookupJ rf "result" with
    | some (.obj resf) =>
      match lookupJ resf "content" with
      | some (.arr items) => items.length
      | _ => 0
    | _ => 0
  | _ => 0

/-- One `content` item the embedded text scan can process without
raising: if the item is a dict whose `type` member is the string
`"text"`, then its `text` member, when present, must be a string —
on any other `text` value CPython raises `TypeError` at the
`marker in text` containment test (common.py line 86), an input
`scanContentItem` models as unchanged. -/
def contentItemTextOk (item : Json) : Bool :=
  match item with
  | .obj ifields =>
    match lookupJ ifields "type" with
    | some (.str t) =>
      if t = "text" then
        match lookupJ ifields "text" with
        | some (.str _) => true
        | some _ => false
        | none => true
      else true
    | _ => true
  | _ => true

/-- Every item of an object's `content` array (when `content` holds an
array) is processable without raising. -/
def contentFieldTextOk (fields : List (String × Json)) : Bool :=
  match lookupJ fields "content" with
  | some (.arr items) => items.all contentItemTextOk
  | _ => true

/-- No node among those `process_data` visits within `fuel` levels
carries a `content` item on which the text scan would raise: the domain
on which the identity fallback of `scanContentItem` is never exercised,
so the embedding and the program agree. -/
def contentTextOk : Nat → Json → Bool
  | 0, _ => true
  | fuel + 1, .obj fields =>
    contentFieldTextOk fields && fields.all (fun p => contentTextOk fuel p.2)
  | fuel + 1, .arr items => items.all (contentTextOk fuel)
  | _ + 1, _ => true

/-! ## Supporting lemmas -/

/-- After filtering out the `(tag, ip)` key, a pool lookup for that key
fails. -/
theorem poolLookup_filter_out (pool : StatefulPool) (tag ip : String) :
    poolLookup (pool.filter (fun e => ! decide (e.1 = (tag, ip)))) tag ip = none := by
  induction pool with
  | nil => rfl
  | cons e rest ih =>
    by_cases he : e.1 = (tag, ip)
    · simp [List.filter, he, ih]
    · simp [List.filter, he, poolLookup, ih]

/-- An entry a GC pass deletes is not a symlink and passed the
string-prefix containment check. -/
theorem gcDecision_true_elim (cfg : GCConfig) (e : JobDirEntry)
    (h : gcDecision cfg e = true) :
    e.isSymlink = false ∧ pyStartsWith e.resolved cfg.jobsDirResolved = true := by
  unfold gcDecision at h
  split at h
  · simp at h
  · split at h
    · simp at h
    · simp at h
    · unfold safeDeleteWouldDelete at h
      split at h
      · simp at h
      · split at h
        · simp at h
        · rename_i hin hsym
          exact ⟨by simpa using hsym, by simpa using hin⟩

/-! ## Claims -/

/-- C1: the claim states that `execute` returns the triple
`(response_json, exit_code, effective_job_dir)` consumed by the request
handler.  In the source, `ProcessManager.execute_request` returns the
pair `(response_data, exit_code)` and names its fourth parameter
`client_ip`, while its only caller `process_mcp_request` passes the
keyword `session_key` and unpacks three values: the call cannot bind
(CPython raises `TypeError`), and the arities disagree.  This theorem
evaluates both mismatches in the call-binding model. -/
theorem C1_execute_request_contract_mismatch :
    bindsKeywords executeRequestSig processMcpRequestCallKeywords = false ∧
    executeRequestResultArity ≠ processMcpRequestUnpackArity := by
  decide

/-- C2: the usage-guide helper `_add_usage_guide_tool` has three
parameters besides `self`.  The ephemeral call site passes three
arguments and binds; the persistent call site passes two and raises
`TypeError`, so the corrected signature is not used on both paths.  The
third conjunct checks the helper itself: called with the corrected
arguments on a `tools/list` exchange with a configured non-empty guide,
it prepends the `📖_usage_instructions` entry carrying the guide as its
description. -/
theorem C2_usage_guide_arity_and_injection :
    bindsPositional addUsageGuideToolSig statelessUsageGuideCallArity = true ∧
    bindsPositional addUsageGuideToolSig statefulUsageGuideCallArity = false ∧
    addUsageGuideTool (some "Use this server wisely")
        (.obj [("jsonrpc", .str "2.0"), ("id", .num 1), ("method", .str "tools/list")])
        (.obj [("jsonrpc", .str "2.0"), ("id", .num 1),
               ("result", .obj [("tools", .arr [.obj [("name", .str "t1")]])])]) =
      .obj [("jsonrpc", .str "2.0"), ("id", .num 1),
            ("result", .obj [("tools",
              .arr [usageGuideToolJson "Use this server wisely",
                    .obj [("name", .str "t1")]])])] :=
  ⟨by decide, by decide, rfl⟩

/-- C3: the claim states that a GC pass deletes a job directory with
readable metadata iff `created_at < now − file_expiry`, deleting exactly
the older of a 7200 s-old and a 60 s-old directory under
`file_expiry = 3600`.  The code computes the cutoff with the offset-naive
`datetime.utcnow()` while `created_at` read back from the system's own
`metadata.json` is offset-aware, so the comparison raises `TypeError`,
the per-entry handler swallows it, and neither directory is deleted
(first conjunct; the second exhibits the failing comparison).  The third
conjunct shows the intended decision logic works when both sides are
naive, deleting exactly the older directory. -/
theorem C3_gc_pass_never_deletes_aware_metadata :
    cleanupOldJobs ⟨"/tmp/mcpo-jobs", 10000, 3600⟩
        [⟨"j-old", true, false, "/tmp/mcpo-jobs/j-old", some (.aware 2800), 2800⟩,
         ⟨"j-new", true, false, "/tmp/mcpo-jobs/j-new", some (.aware 9940), 9940⟩]
      = [⟨"j-old", true, false, "/tmp/mcpo-jobs/j-old", some (.aware 2800), 2800⟩,
         ⟨"j-new", true, false, "/tmp/mcpo-jobs/j-new", some (.aware 9940), 9940⟩] ∧
    pyLtTime (.aware 2800) (.naive 6400) = none ∧
    cleanupOldJobs ⟨"/tmp/mcpo-jobs", 10000, 3600⟩
        [⟨"j-old", true, false, "/tmp/mcpo-jobs/j-old", some (.naive 2800), 2800⟩,
         ⟨"j-new", true, false, "/tmp/mcpo-jobs/j-new", some (.naive 9940), 9940⟩]
      = [⟨"j-new", true, false, "/tmp/mcpo-jobs/j-new", some (.naive 9940), 9940⟩] := by
  refine ⟨?_, rfl, ?_⟩ <;> decide

/-- C4 counterexample: a symlink inside the jobs root whose target is an
expired job directory of the same root.  One full pass leaves the
symlink but deletes its target (through the target's own directory
entry), so the claim "one full garbage-collection pass leaves both the
symlink and its target intact, regardless of its age or target" fails at
this input. -/
theorem C4_counterexample_target_inside_root_deleted :
    cleanupOldJobs ⟨"/tmp/mcpo-jobs", 10000, 3600⟩
        [⟨"link", true, true, "/tmp/mcpo-jobs/old", none, 0⟩,
         ⟨"old", true, false, "/tmp/mcpo-jobs/old", none, 0⟩]
      = [⟨"link", true, true, "/tmp/mcpo-jobs/old", none, 0⟩] := by
  decide

/-- C4 (amended): a GC pass never deletes a symlink entry — any symlink
among the scanned entries survives the pass — and deletion only ever
happens to entries that are not symlinks and whose resolved path passes
the string-prefix containment check against the resolved jobs root; a
symlink is never followed for deletion, though its target may still be
deleted through the target's own entry in the jobs root. -/
theorem C4_gc_pass_spares_symlinks (cfg : GCConfig) (entries : List JobDirEntry)
    (e : JobDirEntry) (he : e ∈ entries) :
    (e.isSymlink = true → e ∈ cleanupOldJobs cfg entries) ∧
    (e ∉ cleanupOldJobs cfg entries →
      e.isSymlink = false ∧ pyStartsWith e.resolved cfg.jobsDirResolved = true) := by
  constructor
  · intro hsym
    rw [cleanupOldJobs, List.mem_filter]
    refine ⟨he, ?_⟩
    by_cases hdec : gcDecision cfg e = true
    · obtain ⟨hs, _⟩ := gcDecision_true_elim cfg e hdec
      rw [hsym] at hs
      exact absurd hs (by simp)
    · simp [Bool.eq_false_iff.mpr hdec]
  · intro habs
    by_cases hdec : gcDecision cfg e = true
    · exact gcDecision_true_elim cfg e hdec
    · exact absurd (by
        rw [cleanupOldJobs, List.mem_filter]
        exact ⟨he, by simp [Bool.eq_false_iff.mpr hdec]⟩) habs

/-- C4 witness: the amended theorem applied to the counterexample's
symlink entry: it is a member of the scanned entries, and, being a
symlink, it survives the pass. -/
theorem C4_gc_pass_spares_symlinks_witness :
    ((⟨"link", true, true, "/tmp/mcpo-jobs/old", none, 0⟩ : JobDirEntry).isSymlink = true →
      (⟨"link", true, true, "/tmp/mcpo-jobs/old", none, 0⟩ : JobDirEntry) ∈
        cleanupOldJobs ⟨"/tmp/mcpo-jobs", 10000, 3600⟩
          [⟨"link", true, true, "/tmp/mcpo-jobs/old", none, 0⟩,
           ⟨"old", true, false, "/tmp/mcpo-jobs/old", none, 0⟩]) ∧
    ((⟨"link", true, true, "/tmp/mcpo-jobs/old", none, 0⟩ : JobDirEntry) ∉
        cleanupOldJobs ⟨"/tmp/mcpo-jobs", 10000, 3600⟩
          [⟨"link", true, true, "/tmp/mcpo-jobs/old", none, 0⟩,
           ⟨"old", true, false, "/tmp/mcpo-jobs/old", none, 0⟩] →
      (⟨"link", true, true, "/tmp/mcpo-jobs/old", none, 0⟩ : JobDirEntry).isSymlink = false ∧
      pyStartsWith "/tmp/mcpo-jobs/old" "/tmp/mcpo-jobs" = true) :=
  C4_gc_pass_spares_symlinks ⟨"/tmp/mcpo-jobs", 10000, 3600⟩
    [⟨"link", true, true, "/tmp/mcpo-jobs/old", none, 0⟩,
     ⟨"old", true, false, "/tmp/mcpo-jobs/old", none, 0⟩]
    ⟨"link", true, true, "/tmp/mcpo-jobs/old", none, 0⟩ (by decide)

/-- C5: on a call exchange (request carrying an `id`), a non-empty
stdout line that `json.loads` rejects yields — by return, not by raise —
the JSON-RPC envelope with code `-32700`, message `"Parse error"`, the
first 500 characters of the offending text as `data`, and the request's
`id`; an empty line yields the `-32603` envelope with
`data = "No response from MCP server"` and the same `id`. -/
theorem C5_parse_error_envelopes (fields : List (String × Json)) (idv : Json)
    (line : String) (hid : lookupJ fields "id" = some idv) (hne : line ≠ "") :
    communicateRespond (.obj fields) line none =
      .obj [("jsonrpc", .str "2.0"),
            ("error", .obj [("code", .num (-32700)),
                            ("message", .str "Parse error"),
                            ("data", .str (pyTake line 500))]),
            ("id", idv)] ∧
    communicateRespond (.obj fields) "" none =
      .obj [("jsonrpc", .str "2.0"),
            ("error", .obj [("code", .num (-32603)),
                            ("message", .str "Internal error"),
                            ("data", .str "No response from MCP server")]),
            ("id", idv)] := by
  constructor
  · simp [communicateRespond, hne, parseErrorEnvelope, requestId, hid]
  · simp [communicateRespond, noResponseEnvelope, requestId, hid]

/-- C5 witness: the request `{"id": 7}` and the non-JSON line `"oops"`. -/
theorem C5_parse_error_envelopes_witness :
    lookupJ [("id", Json.num 7)] "id" = some (.num 7) ∧
    ("oops" : String) ≠ "" ∧
    (communicateRespond (.obj [("id", .num 7)]) "oops" none =
      .obj [("jsonrpc", .str "2.0"),
            ("error", .obj [("code", .num (-32700)),
                            ("message", .str "Parse error"),
                            ("data", .str "oops")]),
            ("id", .num 7)] ∧
    communicateRespond (.obj [("id", .num 7)]) "" none =
      .obj [("jsonrpc", .str "2.0"),
            ("error", .obj [("code", .num (-32603)),
                            ("message", .str "Internal error"),
                            ("data", .str "No response from MCP server")]),
            ("id", .num 7)]) :=
  ⟨rfl, by decide,
   C5_parse_error_envelopes [("id", .num 7)] (.num 7) "oops" rfl (by decide)⟩

/-- C8: in every reachable engine state, the number of in-flight
ephemeral executions is at most `max_concurrent` — each holds exactly
one semaphore permit for its whole duration, so available permits plus
in-flight ephemeral executions always equal `max_concurrent` — and any
transition that changes the number of in-flight persistent executions
leaves the permit count untouched (persistent executions never acquire
the semaphore). -/
theorem C8_semaphore_bounds_ephemeral (maxC : Nat) (s : EngineState)
    (h : EngineReachable maxC s) :
    (s.ephemeralInFlight ≤ maxC ∧
     s.availablePermits + s.ephemeralInFlight = maxC) ∧
    (∀ t, EngineStep s t → t.statefulInFlight ≠ s.statefulInFlight →
      t.availablePermits = s.availablePermits) := by
  constructor
  · induction h with
    | init => simp [engineInit]
    | step hr hstep ih =>
      obtain ⟨ih1, ih2⟩ := ih
      cases hstep with
      | ephemeralStart hp => exact ⟨by simp; omega, by simp; omega⟩
      | ephemeralFinish hp => exact ⟨by simp; omega, by simp; omega⟩
      | statefulStart => exact ⟨ih1, ih2⟩
      | statefulFinish hp => exact ⟨ih1, ih2⟩
  · intro t hst hne
    cases hst with
    | ephemeralStart hp => exact absurd rfl hne
    | ephemeralFinish hp => exact absurd rfl hne
    | statefulStart => rfl
    | statefulFinish hp => rfl

/-- C8 witness: with `max_concurrent = 2`, the state reached by admitting
one ephemeral execution from the initial state. -/
theorem C8_semaphore_bounds_ephemeral_witness :
    ((1 : Nat) ≤ 2 ∧ 1 + 1 = 2) ∧
    (∀ t, EngineStep ⟨1, 1, 0⟩ t → t.statefulInFlight ≠ 0 →
      t.availablePermits = 1) :=
  C8_semaphore_bounds_ephemeral 2 ⟨1, 1, 0⟩
    (.step .init (.ephemeralStart (engineInit 2) (by decide)))

/-- C9: when the exchange body of a persistent-path request fails with
any exception (timeout included), `_execute_stateful` terminates the
pooled child, removes its pool entry, and re-raises: the propagated
outcome is the original exception, the pool no longer resolves
`(server_tag, session_key)`, and the child's process was terminated. -/
theorem C9_stateful_eviction_on_failure (pool : StatefulPool) (tag ip : String)
    (now : Int) (err : ExchangeErr) (info : PoolProcInfo)
    (h : poolLookup pool tag ip = some info) :
    (executeStatefulFinish pool tag ip now (.error err)).1 = .error err ∧
    poolLookup (executeStatefulFinish pool tag ip now (.error err)).2.1 tag ip = none ∧
    info.pid ∈ (executeStatefulFinish pool tag ip now (.error err)).2.2 := by
  unfold executeStatefulFinish removeStatefulProcess
  rw [h]
  exact ⟨rfl, poolLookup_filter_out pool tag ip, by simp⟩

/-- C9 witness: a pool holding one child (pid 42) for session
`("calc", "9.9.9.9")` and a timeout outcome. -/
theorem C9_stateful_eviction_on_failure_witness :
    poolLookup [(("calc", "9.9.9.9"), ⟨42, 0, 0⟩)] "calc" "9.9.9.9" = some ⟨42, 0, 0⟩ ∧
    ((executeStatefulFinish [(("calc", "9.9.9.9"), ⟨42, 0, 0⟩)] "calc" "9.9.9.9" 5
        (.error .timeout)).1 = .error .timeout ∧
     poolLookup (executeStatefulFinish [(("calc", "9.9.9.9"), ⟨42, 0, 0⟩)] "calc" "9.9.9.9" 5
        (.error .timeout)).2.1 "calc" "9.9.9.9" = none ∧
     (42 : Nat) ∈ (executeStatefulFinish [(("calc", "9.9.9.9"), ⟨42, 0, 0⟩)] "calc" "9.9.9.9" 5
        (.error .timeout)).2.2) :=
  ⟨rfl, C9_stateful_eviction_on_failure [(("calc", "9.9.9.9"), ⟨42, 0, 0⟩)]
    "calc" "9.9.9.9" 5 .timeout ⟨42, 0, 0⟩ rfl⟩

/-- C10: `_safe_delete` compares resolved paths by `startswith`, so the
sibling path `/tmp/mcpo-jobs-backup` — outside the jobs root
`/tmp/mcpo-jobs`, not being a component-wise descendant of it — passes
the containment check, and a non-symlink entry resolving there would be
deleted: descendant-ship is not verified component-wise. -/
theorem C10_containment_check_is_string_prefix :
    pyStartsWith "/tmp/mcpo-jobs-backup" "/tmp/mcpo-jobs" = true ∧
    isPathDescendant "/tmp/mcpo-jobs" "/tmp/mcpo-jobs-backup" = false ∧
    safeDeleteWouldDelete ⟨"/tmp/mcpo-jobs", 10000, 3600⟩
      ⟨"victim", true, false, "/tmp/mcpo-jobs-backup", none, 0⟩ = true := by
  decide

/-- `fieldStep` in terms of the extraction candidate. -/
theorem fieldStep_eq (cfg : RewriteConfig) (n : String)
    (fields : List (String × Json)) (files : List FileEntry) :
    fieldStep cfg n fields files =
      match extractCandidate cfg fields n with
      | some f =>
        (setKey fields "_download_url" (.str (downloadUrl cfg f)),
         files ++ [⟨f, downloadUrl cfg f⟩])
      | none => (fields, files) := by
  unfold fieldStep extractCandidate
  cases lookupJ fields n with
  | none => rfl
  | some v =>
    cases v with
    | str s =>
      by_cases hs : s = ""
      · simp [hs]
      · simp only [hs, if_false]
        cases extractFilenameFromPath cfg.jobId s with
        | none => rfl
        | some f =>
          by_cases hf : f = ""
          · simp [hf]
          · simp [hf]
    | null => rfl
    | bool b => rfl
    | num m => rfl
    | arr xs => rfl
    | obj xs => rfl

/-- Setting `_download_url` does not change the candidate of any other
field name. -/
theorem extractCandidate_setKey (cfg : RewriteConfig)
    (fields : List (String × Json)) (n : String) (v : Json)
    (h : n ≠ "_download_url") :
    extractCandidate cfg (setKey fields "_download_url" v) n =
      extractCandidate cfg fields n := by
  unfold extractCandidate
  rw [lookupJ_setKey_ne fields "_download_url" n v h]

/-- Setting `_download_url` does not change the folded extraction over
names other than `_download_url`. -/
theorem lastExtractedAux_setKey (cfg : RewriteConfig) (names : List String)
    (fields : List (String × Json)) (v : Json)
    (h : "_download_url" ∉ names) :
    ∀ acc, lastExtractedAux cfg names (setKey fields "_download_url" v) acc =
      lastExtractedAux cfg names fields acc := by
  induction names with
  | nil => intro acc; rfl
  | cons n rest ih =>
    intro acc
    have hn : n ≠ "_download_url" := by
      intro he
      exact h (he ▸ List.mem_cons_self n rest)
    have hrest : "_download_url" ∉ rest := fun hm => h (List.mem_cons_of_mem n hm)
    simp only [lastExtractedAux, extractCandidate_setKey cfg fields n v hn, ih hrest]

/-- The folded extraction ignores its accumulator unless no name hits. -/
theorem lastExtractedAux_acc (cfg : RewriteConfig) (names : List String)
    (fields : List (String × Json)) :
    ∀ acc, lastExtractedAux cfg names fields acc =
      match lastExtractedAux cfg names fields none with
      | some g => some g
      | none => acc := by
  induction names with
  | nil => intro acc; rfl
  | cons n rest ih =>
    intro acc
    simp only [lastExtractedAux]
    cases hc : extractCandidate cfg fields n with
    | some f =>
      rw [ih (some f)]
      cases lastExtractedAux cfg rest fields none <;> simp
    | none =>
      exact ih acc

/-- The `_download_url` member produced by the field loop: the URL of
the last configured field with a non-empty extractable filename, or the
value it had before when no field hits. -/
theorem fieldLoop_download_url (cfg : RewriteConfig) (names : List String)
    (hn : "_download_url" ∉ names) :
    ∀ fields files,
      lookupJ (fieldLoop cfg names fields files).1 "_download_url" =
        match lastExtractedAux cfg names fields none with
        | some f => some (.str (downloadUrl cfg f))
        | none => lookupJ fields "_download_url" := by
  induction names with
  | nil => intro fields files; rfl
  | cons n rest ih =>
    intro fields files
    have hns : n ≠ "_download_url" := by
      intro he
      exact hn (he ▸ List.mem_cons_self n rest)
    have hrest : "_download_url" ∉ rest := fun hm => hn (List.mem_cons_of_mem n hm)
    simp only [fieldLoop, fieldStep_eq, lastExtractedAux]
    cases hc : extractCandidate cfg fields n with
    | none =>
      simp only [hc]
      exact ih hrest fields files
    | some f =>
      simp only [hc]
      rw [ih hrest]
      rw [lastExtractedAux_setKey cfg rest fields _ hrest none]
      rw [lastExtractedAux_acc cfg rest fields (some f)]
      rw [lookupJ_setKey_self]
      cases lastExtractedAux cfg rest fields none <;> simp

/-- C6 counterexample: the claim reads "… if and only if a filename was
extractable from the string, i.e. the string contains the substring
`/mcpo-jobs/<job_id>/` or is a non-empty relative path".  The string
`"/tmp/mcpo-jobs/j1/"` contains that substring for job `j1`, yet
`_extract_file_info` leaves the object unchanged — no `_download_url` is
added and no file is recorded — because the text after the marker is
empty and the empty filename is discarded by the `if filename:` guard. -/
theorem C6_counterexample_marker_without_filename :
    strContains "/tmp/mcpo-jobs/j1/" "/mcpo-jobs/j1/" = true ∧
    (extractFileInfoF ⟨"j1", "B", ["file_path"]⟩ 2
        (.obj [("file_path", .str "/tmp/mcpo-jobs/j1/")])).1
      = .obj [("file_path", .str "/tmp/mcpo-jobs/j1/")] ∧
    (extractFileInfoF ⟨"j1", "B", ["file_path"]⟩ 2
        (.obj [("file_path", .str "/tmp/mcpo-jobs/j1/")])).2 = [] ∧
    lookupJ [("file_path", Json.str "/tmp/mcpo-jobs/j1/")] "_download_url" = none :=
  ⟨by decide, rfl, rfl, rfl⟩

/-- C6 (amended): on an object that does not already carry
`_download_url`, the field loop of `_extract_file_info` leaves a
`_download_url` member iff some configured field holds a string from
which a **non-empty** filename is extractable — the text after the last
occurrence of `/mcpo-jobs/<job_id>/` when the marker occurs, else the
basename of a relative path — and its value is the download URL of the
last such field. -/
theorem C6_download_url_iff_nonempty_filename (cfg : RewriteConfig)
    (names : List String) (fields : List (String × Json)) (files : List FileEntry)
    (hn : "_download_url" ∉ names)
    (hd : lookupJ fields "_download_url" = none) :
    lookupJ (fieldLoop cfg names fields files).1 "_download_url" =
      (lastExtractedFilename cfg names fields).map
        (fun f => .str (downloadUrl cfg f)) := by
  rw [fieldLoop_download_url cfg names hn fields files]
  unfold lastExtractedFilename
  cases lastExtractedAux cfg names fields none with
  | none => simpa using hd
  | some f => simp

/-- C6 witness: the single configured field `output_path` holding the
relative path `report.xlsx` produces
`_download_url = B/files/j1/report.xlsx`. -/
theorem C6_download_url_iff_nonempty_filename_witness :
    ("_download_url" ∉ ["output_path"]) ∧
    lookupJ [("output_path", Json.str "report.xlsx")] "_download_url" = none ∧
    lookupJ (fieldLoop ⟨"j1", "B", ["output_path"]⟩ ["output_path"]
        [("output_path", Json.str "report.xlsx")] []).1 "_download_url" =
      (lastExtractedFilename ⟨"j1", "B", ["output_path"]⟩ ["output_path"]
        [("output_path", Json.str "report.xlsx")]).map
          (fun f => .str (downloadUrl ⟨"j1", "B", ["output_path"]⟩ f)) :=
  ⟨by decide, rfl,
   C6_download_url_iff_nonempty_filename ⟨"j1", "B", ["output_path"]⟩
     ["output_path"] [("output_path", Json.str "report.xlsx")] []
     (by decide) rfl⟩

/-- The field step only appends to the discovered-file list. -/
theorem fieldStep_mono (cfg : RewriteConfig) (n : String)
    (fields : List (String × Json)) (files : List FileEntry) :
    files <+: (fieldStep cfg n fields files).2 := by
  rw [fieldStep_eq]
  cases extractCandidate cfg fields n with
  | none => exact List.prefix_rfl
  | some f => exact List.prefix_append files _

/-- The field loop only appends to the discovered-file list. -/
theorem fieldLoop_mono (cfg : RewriteConfig) (names : List String) :
    ∀ fields files, files <+: (fieldLoop cfg names fields files).2 := by
  induction names with
  | nil => intro _ _; exact List.prefix_rfl
  | cons n rest ih =>
    intro fields files
    exact (fieldStep_mono cfg n fields files).trans (ih _ _)

/-- The match-rewriting loop only appends to the discovered-file list. -/
theorem rewriteMatches_mono (cfg : RewriteConfig) :
    ∀ ms text files, files <+: (rewriteMatches cfg ms text files).2 := by
  intro ms
  induction ms with
  | nil => intro _ _; exact List.prefix_rfl
  | cons fn rest ih =>
    intro text files
    simp only [rewriteMatches]
    refine List.IsPrefix.trans ?_ (ih _ _)
    split
    · exact List.prefix_append files _
    · exact List.prefix_rfl

/-- Scanning one content item only appends to the discovered-file list. -/
theorem scanContentItem_mono (cfg : RewriteConfig) (item : Json)
    (files : List FileEntry) :
    files <+: (scanContentItem cfg item files).2 := by
  unfold scanContentItem
  repeat' split
  all_goals first
    | exact List.prefix_rfl
    | exact rewriteMatches_mono cfg _ _ files

/-- Scanning a content list only appends to the discovered-file list. -/
theorem scanContentList_mono (cfg : RewriteConfig) :
    ∀ items files, files <+: (scanContentList cfg items files).2 := by
  intro items
  induction items with
  | nil => intro _; exact List.prefix_rfl
  | cons item rest ih =>
    intro files
    exact (scanContentItem_mono cfg item files).trans (ih _)

/-- The content scan only appends to the discovered-file list. -/
theorem contentScan_mono (cfg : RewriteConfig) (fields : List (String × Json))
    (files : List FileEntry) :
    files <+: (contentScan cfg fields files).2 := by
  unfold contentScan
  repeat' split
  all_goals first
    | exact List.prefix_rfl
    | exact scanContentList_mono cfg _ files

/-- Threading a file-monotone processing function through field values is
file-monotone. -/
theorem threadPairs_mono (g : Json → List FileEntry → Json × List FileEntry)
    (hg : ∀ j files, files <+: (g j files).2) :
    ∀ l files, files <+: (threadPairs g l files).2 := by
  intro l
  induction l with
  | nil => intro _; exact List.prefix_rfl
  | cons p rest ih =>
    obtain ⟨k, v⟩ := p
    intro files
    exact (hg v files).trans (ih _)

/-- Threading a file-monotone processing function through list items is
file-monotone. -/
theorem threadItems_mono (g : Json → List FileEntry → Json × List FileEntry)
    (hg : ∀ j files, files <+: (g j files).2) :
    ∀ l files, files <+: (threadItems g l files).2 := by
  intro l
  induction l with
  | nil => intro _; exact List.prefix_rfl
  | cons item rest ih =>
    intro files
    exact (hg item files).trans (ih _)

/-- `process_data` only appends to the discovered-file list. -/
theorem processDataF_mono (cfg : RewriteConfig) :
    ∀ fuel j files, files <+: (processDataF cfg fuel j files).2 := by
  intro fuel
  induction fuel with
  | zero => intro j files; exact List.prefix_rfl
  | succ n ih =>
    intro j files
    cases j with
    | obj fields =>
      simp only [processDataF]
      exact ((fieldLoop_mono cfg cfg.filePathFields fields files).trans
        (contentScan_mono cfg _ _)).trans (threadPairs_mono _ ih _ _)
    | arr items =>
      simp only [processDataF]
      exact threadItems_mono _ ih items files
    | null => exact List.prefix_rfl
    | bool b => exact List.prefix_rfl
    | num m => exact List.prefix_rfl
    | str s => exact List.prefix_rfl

/-- A list sandwiched by prefix relations between a list and itself is
that list. -/
theorem prefix_squeeze {α : Type} {a b c : List α} (h1 : a <+: b)
    (h2 : b <+: c) (hc : c = a) : b = a := by
  subst hc
  exact (h1.eq_of_length (le_antisymm h1.length_le h2.length_le)).symm

/-- A field step that records no file changes nothing. -/
theorem fieldStep_nf (cfg : RewriteConfig) (n : String)
    (fields : List (String × Json)) (files : List FileEntry)
    (h : (fieldStep cfg n fields files).2 = files) :
    (fieldStep cfg n fields files).1 = fields := by
  rw [fieldStep_eq] at h ⊢
  cases hc : extractCandidate cfg fields n with
  | none => rfl
  | some f =>
    rw [hc] at h
    have := congrArg List.length h
    simp at this

/-- A field loop that records no file changes nothing. -/
theorem fieldLoop_nf (cfg : RewriteConfig) (names : List String) :
    ∀ fields files, (fieldLoop cfg names fields files).2 = files →
      (fieldLoop cfg names fields files).1 = fields := by
  induction names with
  | nil => intro fields files _; rfl
  | cons n rest ih =>
    intro fields files h
    simp only [fieldLoop] at h ⊢
    have hmid : (fieldStep cfg n fields files).2 = files :=
      prefix_squeeze (fieldStep_mono cfg n fields files)
        (fieldLoop_mono cfg rest _ _) h
    rw [fieldStep_nf cfg n fields files hmid, hmid] at h ⊢
    exact ih fields files h

/-- With an empty discovered-file list, a non-empty match list always
records its first match, so the resulting list cannot be empty. -/
theorem rewriteMatches_cons_ne_nil (cfg : RewriteConfig) (fn : String)
    (rest : List String) (text : String) :
    (rewriteMatches cfg (fn :: rest) text []).2 ≠ [] := by
  simp only [rewriteMatches, List.all_nil, if_true, List.nil_append]
  intro h
  have := rewriteMatches_mono cfg rest
    (pyReplace text ("/tmp/mcpo-jobs/" ++ cfg.jobId ++ "/" ++ fn) fn)
    [⟨fn, downloadUrl cfg fn⟩]
  rw [h] at this
  simp at this

/-- Scanning one content item with an empty discovered-file list and
recording nothing changes nothing. -/
theorem scanContentItem_nf (cfg : RewriteConfig) (item : Json)
    (h : (scanContentItem cfg item []).2 = []) :
    (scanContentItem cfg item []).1 = item := by
  cases item with
  | obj ifields =>
    cases htyp : lookupJ ifields "type" with
    | none => simp [scanContentItem, htyp]
    | some tv =>
      cases tv with
      | str t =>
        by_cases ht : t = "text"
        · cases htxt : lookupJ ifields "text" with
          | none => simp [scanContentItem, htyp, ht, htxt]
          | some txv =>
            cases txv with
            | str text =>
              by_cases hmark : strContains text ("/mcpo-jobs/" ++ cfg.jobId ++ "/") = true
              · simp only [scanContentItem, htyp, ht, if_true, htxt, hmark] at h ⊢
                cases hms : findallPaths cfg.jobId text with
                | nil =>
                  simp only [hms, rewriteMatches]
                  rw [setKey_self ifields "text" (.str text) htxt]
                | cons fn ms =>
                  rw [hms] at h
                  exact absurd h (rewriteMatches_cons_ne_nil cfg fn ms text)
              · simp [scanContentItem, htyp, ht, htxt, hmark]
            | null => simp [scanContentItem, htyp, ht, htxt]
            | bool b => simp [scanContentItem, htyp, ht, htxt]
            | num m => simp [scanContentItem, htyp, ht, htxt]
            | arr xs => simp [scanContentItem, htyp, ht, htxt]
            | obj xs => simp [scanContentItem, htyp, ht, htxt]
        · simp [scanContentItem, htyp, ht]
      | null => simp [scanContentItem, htyp]
      | bool b => simp [scanContentItem, htyp]
      | num m => simp [scanContentItem, htyp]
      | arr xs => simp [scanContentItem, htyp]
      | obj xs => simp [scanContentItem, htyp]
  | null => rfl
  | bool b => rfl
  | num m => rfl
  | str s => rfl
  | arr xs => rfl

/-- Scanning a content list with an empty discovered-file list and
recording nothing changes nothing. -/
theorem scanContentList_nf (cfg : RewriteConfig) :
    ∀ items, (scanContentList cfg items []).2 = [] →
      (scanContentList cfg items []).1 = items := by
  intro items
  induction items with
  | nil => intro _; rfl
  | cons item rest ih =>
    intro h
    simp only [scanContentList] at h ⊢
    have hmid : (scanContentItem cfg item []).2 = [] :=
      prefix_squeeze (scanContentItem_mono cfg item [])
        (scanContentList_mono cfg rest _) h
    rw [hmid] at h ⊢
    rw [scanContentItem_nf cfg item hmid]
    rw [ih h]

/-- A content scan with an empty discovered-file list that records
nothing changes nothing. -/
theorem contentScan_nf (cfg : RewriteConfig) (fields : List (String × Json))
    (h : (contentScan cfg fields []).2 = []) :
    (contentScan cfg fields []).1 = fields := by
  unfold contentScan at h ⊢
  cases hck : lookupJ fields "content" with
  | none => simp [hck]
  | some cv =>
    cases cv with
    | arr items =>
      simp only [hck] at h ⊢
      rw [scanContentList_nf cfg items h]
      exact setKey_self fields "content" (.arr items) hck
    | null => simp [hck]
    | bool b => simp [hck]
    | num m => simp [hck]
    | str s => simp [hck]
    | obj xs => simp [hck]

/-- Threading a processing function that is file-monotone and identity
without discoveries through field values, with nothing discovered,
changes nothing. -/
theorem threadPairs_nf (g : Json → List FileEntry → Json × List FileEntry)
    (hgm : ∀ j files, files <+: (g j files).2)
    (hgn : ∀ j, (g j []).2 = [] → (g j []).1 = j) :
    ∀ l, (threadPairs g l []).2 = [] → (threadPairs g l []).1 = l := by
  intro l
  induction l with
  | nil => intro _; rfl
  | cons p rest ih =>
    obtain ⟨k, v⟩ := p
    intro h
    simp only [threadPairs] at h ⊢
    have hmid : (g v []).2 = [] :=
      prefix_squeeze (hgm v []) (threadPairs_mono g hgm rest _) h
    rw [hmid] at h ⊢
    rw [hgn v hmid, ih h]

/-- As `threadPairs_nf`, for list items. -/
theorem threadItems_nf (g : Json → List FileEntry → Json × List FileEntry)
    (hgm : ∀ j files, files <+: (g j files).2)
    (hgn : ∀ j, (g j []).2 = [] → (g j []).1 = j) :
    ∀ l, (threadItems g l []).2 = [] → (threadItems g l []).1 = l := by
  intro l
  induction l with
  | nil => intro _; rfl
  | cons item rest ih =>
    intro h
    simp only [threadItems] at h ⊢
    have hmid : (g item []).2 = [] :=
      prefix_squeeze (hgm item []) (threadItems_mono g hgm rest _) h
    rw [hmid] at h ⊢
    rw [hgn item hmid, ih h]

/-- A `process_data` run that discovers no file changes nothing. -/
theorem processDataF_nf (cfg : RewriteConfig) :
    ∀ fuel j, (processDataF cfg fuel j []).2 = [] →
      (processDataF cfg fuel j []).1 = j := by
  intro fuel
  induction fuel with
  | zero => intro j _; rfl
  | succ n ih =>
    intro j h
    cases j with
    | obj fields =>
      simp only [processDataF] at h ⊢
      have h1 : (fieldLoop cfg cfg.filePathFields fields []).2 = [] :=
        prefix_squeeze (fieldLoop_mono cfg _ fields [])
          ((contentScan_mono cfg _ _).trans
            (threadPairs_mono _ (processDataF_mono cfg n) _ _)) h
      rw [h1] at h ⊢
      rw [fieldLoop_nf cfg cfg.filePathFields fields [] h1] at h ⊢
      have h2 : (contentScan cfg fields []).2 = [] :=
        prefix_squeeze (contentScan_mono cfg fields [])
          (threadPairs_mono _ (processDataF_mono cfg n) _ _) h
      rw [h2] at h ⊢
      rw [contentScan_nf cfg fields h2] at h ⊢
      rw [threadPairs_nf (processDataF cfg n) (processDataF_mono cfg n) ih fields h]
    | arr items =>
      simp only [processDataF] at h ⊢
      rw [threadItems_nf (processDataF cfg n) (processDataF_mono cfg n) ih items h]
    | null => rfl
    | bool b => rfl
    | num m => rfl
    | str s => rfl

/-- C7 counterexample: the full response-rewrite step is not idempotent.
On the response `{"jsonrpc": "2.0", "id": 1, "result": {"output_path":
"report.xlsx"}}` with `file_path_fields = ["output_path"]`, the first
application appends one `📎` download-link content item; the second
application re-extracts the still-relative `output_path` value and
appends a second such item, so applying the step twice differs from
applying it once (the observer counts the `result.content` items: two
against one). -/
theorem C7_counterexample_second_pass_appends_again :
    rewriteResponse ⟨"j1", "B", ["output_path"]⟩ 4
        (rewriteResponse ⟨"j1", "B", ["output_path"]⟩ 4
          (.obj [("jsonrpc", .str "2.0"), ("id", .num 1),
                 ("result", .obj [("output_path", .str "report.xlsx")])]))
      ≠ rewriteResponse ⟨"j1", "B", ["output_path"]⟩ 4
          (.obj [("jsonrpc", .str "2.0"), ("id", .num 1),
                 ("result", .obj [("output_path", .str "report.xlsx")])]) ∧
    resultContentLength
        (rewriteResponse ⟨"j1", "B", ["output_path"]⟩ 4
          (rewriteResponse ⟨"j1", "B", ["output_path"]⟩ 4
            (.obj [("jsonrpc", .str "2.0"), ("id", .num 1),
                   ("result", .obj [("output_path", .str "report.xlsx")])]))) = 2 ∧
    resultContentLength
        (rewriteResponse ⟨"j1", "B", ["output_path"]⟩ 4
          (.obj [("jsonrpc", .str "2.0"), ("id", .num 1),
                 ("result", .obj [("output_path", .str "report.xlsx")])])) = 1 :=
  ⟨fun h => absurd (congrArg resultContentLength h) (by decide), rfl, rfl⟩

/-- C7 (amended): the full rewrite step is not idempotent in general —
the counterexample shows a second application appending a second
download-link item.  A sufficient condition for idempotence: whenever
the first application discovers no files, the step is the identity, so
a second application changes nothing; this holds for every response on
which the program does not raise (no `type:"text"` content item carries
a non-string `text`, the `contentTextOk` hypothesis).  Discovering files
does not by itself break idempotence: the last conjunct shows the
response `{"output_path": "report.xlsx"}` without a `result` member,
whose file is re-discovered by every pass, is nevertheless a fixed point
of the second application (`_download_url` is overwritten with the same
value and no `result` object exists to append to). -/
theorem C7_idempotent_when_nothing_discovered (cfg : RewriteConfig)
    (fuel : Nat) (j : Json)
    (hok : contentTextOk fuel j = true)
    (h : (extractFileInfoF cfg fuel j).2 = []) :
    (rewriteResponse cfg fuel j = j ∧
     rewriteResponse cfg fuel (rewriteResponse cfg fuel j) =
       rewriteResponse cfg fuel j) ∧
    ((extractFileInfoF ⟨"j1", "B", ["output_path"]⟩ 3
        (.obj [("output_path", .str "report.xlsx")])).2 ≠ [] ∧
     rewriteResponse ⟨"j1", "B", ["output_path"]⟩ 3
        (rewriteResponse ⟨"j1", "B", ["output_path"]⟩ 3
          (.obj [("output_path", .str "report.xlsx")])) =
       rewriteResponse ⟨"j1", "B", ["output_path"]⟩ 3
          (.obj [("output_path", .str "report.xlsx")])) := by
  have h1 : (processDataF cfg fuel j []).1 = j := processDataF_nf cfg fuel j h
  have hr : rewriteResponse cfg fuel j = j := by
    unfold extractFileInfoF at h
    unfold rewriteResponse extractFileInfoF
    rw [h, h1]
    rfl
  refine ⟨⟨hr, ?_⟩, by decide, rfl⟩
  rw [hr, hr]

/-- C7 witness: a response without file paths and without raising
content items satisfies both hypotheses and is a fixed point of the
rewrite step. -/
theorem C7_idempotent_when_nothing_discovered_witness :
    contentTextOk 3 (.obj [("result", .obj [("status", .str "done")])]) = true ∧
    (extractFileInfoF ⟨"j1", "B", ["file_path"]⟩ 3
        (.obj [("result", .obj [("status", .str "done")])])).2 = [] ∧
    ((rewriteResponse ⟨"j1", "B", ["file_path"]⟩ 3
        (.obj [("result", .obj [("status", .str "done")])]) =
      .obj [("result", .obj [("status", .str "done")])] ∧
    rewriteResponse ⟨"j1", "B", ["file_path"]⟩ 3
        (rewriteResponse ⟨"j1", "B", ["file_path"]⟩ 3
          (.obj [("result", .obj [("status", .str "done")])])) =
      rewriteResponse ⟨"j1", "B", ["file_path"]⟩ 3
        (.obj [("result", .obj [("status", .str "done")])])) ∧
    ((extractFileInfoF ⟨"j1", "B", ["output_path"]⟩ 3
        (.obj [("output_path", .str "report.xlsx")])).2 ≠ [] ∧
     rewriteResponse ⟨"j1", "B", ["output_path"]⟩ 3
        (rewriteResponse ⟨"j1", "B", ["output_path"]⟩ 3
          (.obj [("output_path", .str "report.xlsx")])) =
       rewriteResponse ⟨"j1", "B", ["output_path"]⟩ 3
          (.obj [("output_path", .str "report.xlsx")]))) :=
  ⟨rfl, rfl, C7_idempotent_when_nothing_discovered ⟨"j1", "B", ["file_path"]⟩ 3
    (.obj [("result", .obj [("status", .str "done")])]) rfl rfl⟩
